import Mathlib

/-!
Verification of the quiz-backend game manager.

Shallow embedding of `src/game/game_logic/game_manager.py` (`GameWorker` and
`GameState`).  Python dicts are modelled as association lists in insertion
order; dict keys of the worker's `active_games` dict are modelled by the
`Key` type because the source mixes `str` keys (when storing games) with an
`int` key (in the allocator's lookup) and Python's `==` never identifies an
`int` with a `str`.  Operations that can raise an unhandled Python exception
(`TypeError` on subscripting `None`, `KeyError` on a missing dict key,
`ValueError` on `list.remove`) return `Option`, with `none` marking the
unhandled exception.  The f-string `f" #{index}"` and `str(code)` are
rendered with `Nat.repr` / string append.
-/

/-- One recorded answer of a player: the dict
`{"question_id": ..., "score": ...}` from `GameState.set_answer`. -/
structure Answer where
  question_id : Int
  score : Nat
deriving DecidableEq, Repr

/-- One member of a room: the dict
`{"channel_name": ..., "username": ..., "answers": [...]}` from
`GameState.add_user`. -/
structure User where
  channel_name : String
  username : String
  answers : List Answer
deriving DecidableEq, Repr

/-- The per-room state object `GameState` of the source. -/
structure GameState where
  code : String
  users : List User
  running : Bool
deriving DecidableEq, Repr

/-- A question row handed to the scheduler (`game.models.Question`):
only the fields the worker reads. -/
structure Question where
  content : String
  answers : List String
  correct_answer : Int
deriving DecidableEq, Repr

/-- A Python dict key: the source stores games under `str` keys but the code
allocator looks up an `int` key, and Python `==` never equates the two. -/
inductive Key where
  | str (s : String)
  | int (n : Nat)
deriving DecidableEq, Repr

/-- Python dict lookup `d.get(k, None)` over an insertion-ordered
association list (dict keys are unique, so first match is the match). -/
def alistGet {κ α : Type} [BEq κ] (l : List (κ × α)) (k : κ) : Option α :=
  match l with
  | [] => none
  | p :: t => if p.1 == k then some p.2 else alistGet t k

/-- Python dict assignment `d[k] = v`: replaces the value in place when the
key exists, otherwise appends the new entry. -/
def alistSet {κ α : Type} [BEq κ] (l : List (κ × α)) (k : κ) (v : α) :
    List (κ × α) :=
  match l with
  | [] => [(k, v)]
  | p :: t => if p.1 == k then (k, v) :: t else p :: alistSet t k v

/-- Python dict key removal `del d[k]` / `d.pop(k)` (keys are unique in a
dict, so filtering out the key is the same as removing the one entry). -/
def alistErase {κ α : Type} [BEq κ] (l : List (κ × α)) (k : κ) :
    List (κ × α) :=
  l.filter (fun p => !(p.1 == k))

/-- Events sent through the channel layer: unicasts (`target` is a channel
name) and group broadcasts (`group` is a game code). -/
inductive Msg where
  | error (target : String) (msg : String)
  | game_created (target : String) (game_code : String)
  | join_successful (target : String) (username : String)
  | show_users (group : String) (users : List String)
  | game_started (group : String)
  | ask_question (group : String) (question_id : Int) (time : Nat)
      (question : String) (answers : List String)
  | game_ended (group : String) (scores : List (String × Nat))
  | question_end (target : String) (question_id : Int) (correct : Bool)
deriving DecidableEq, Repr

/-- The question currently held in the worker's single field
`self.current_question` (a dict with `id` and `correct_answer`). -/
structure CurrentQuestion where
  id : Int
  correct_answer : Int
deriving DecidableEq, Repr

/-- The moving parts of the `GameWorker` consumer: `active_games`,
`current_players` and `current_question` from `GameWorker.__init__`. -/
structure Worker where
  active_games : List (Key × GameState)
  current_players : List (String × String)
  current_question : Option CurrentQuestion
deriving DecidableEq, Repr

namespace GameState

/-- Source `GameState.__init__`. -/
def init (code : String) : GameState := ⟨code, [], false⟩

/-- Source `GameState.start_game`: returns the updated state and the boolean the
method returns. -/
def start_game (g : GameState) : GameState × Bool :=
  if g.running then (g, false) else ({ g with running := true }, true)

/-- Source `GameState.is_game_running`. -/
def is_game_running (g : GameState) : Bool := g.running

/-- Source `GameState.is_username_available`: scans the member list for a user with
that username. -/
def is_username_available (g : GameState) (username : String) : Bool :=
  !(g.users.any (fun u => u.username == username))

/-- Source `username + f" #{index}"`. -/
def suffixName (username : String) (index : Nat) : String :=
  username ++ " #" ++ Nat.repr index

/-- The `while not self.is_username_available(...): index += 1` loop of
`GameState.add_user`, run with explicit fuel.  `GameState.users.length + 1`
units of fuel always suffice (`exists_available_suffix` below), and then the
result is the first free index, exactly as in the unbounded source loop. -/
def find_suffix_index (g : GameState) (username : String) :
    Nat → Nat → Nat
  | 0, index => index
  | fuel + 1, index =>
    if g.is_username_available (suffixName username index) then index
    else find_suffix_index g username fuel (index + 1)

/-- Source `GameState.add_user`: disambiguates the username and appends the new
member; returns the updated state and the final username. -/
def add_user (g : GameState) (channel_name username : String) :
    GameState × String :=
  let finalName :=
    if g.is_username_available username then username
    else suffixName username (find_suffix_index g username (g.users.length + 1) 2)
  ({ g with users := g.users ++ [⟨channel_name, finalName, []⟩] }, finalName)

/-- Source `GameState.get_user`: first member with the given channel name. -/
def get_user (g : GameState) (channel_name : String) : Option User :=
  g.users.find? (fun u => u.channel_name == channel_name)

/-- Source `GameState.remove_user`: `self.users.remove(self.get_user(...))`;
`none` models the `ValueError`/`TypeError` when the user is absent. -/
def remove_user (g : GameState) (channel_name : String) : Option GameState :=
  match g.get_user channel_name with
  | none => none
  | some u => some { g with users := g.users.erase u }

/-- Source `GameState.count_user_score`: sum of the recorded answer scores. -/
def count_user_score (u : User) : Nat :=
  u.answers.foldl (fun score q => score + q.score) 0

/-- Replace the first user with the given channel name (the source mutates
the dict returned by `get_user`, which is the first match). -/
def updateFirst (users : List User) (channel_name : String)
    (f : User → User) : List User :=
  match users with
  | [] => []
  | u :: rest =>
    if u.channel_name == channel_name then f u :: rest
    else u :: updateFirst rest channel_name f

/-- Source `GameState.set_answer`: records the answer unless one already exists for
this question id; returns the updated state and the boolean the method
returns.  `none` models the `TypeError` when `get_user` returned `None`. -/
def set_answer (g : GameState) (channel_name : String) (question_id : Int)
    (score : Nat) : Option (GameState × Bool) :=
  match g.get_user channel_name with
  | none => none
  | some u =>
    if u.answers.any (fun q => q.question_id == question_id) then
      some (g, false)
    else
      let record : User → User :=
        fun v => { v with answers := v.answers ++ [⟨question_id, score⟩] }
      some ({ g with users := updateFirst g.users channel_name record }, true)

/-- Source `GameState.check_if_user_was_right`: reads back the recorded score for
one question; `none` models the `TypeError` when the user is absent. -/
def check_if_user_was_right (g : GameState) (channel_name : String)
    (question_id : Int) : Option Bool :=
  match g.get_user channel_name with
  | none => none
  | some u =>
    match u.answers.find? (fun q => q.question_id == question_id) with
    | some q => some (decide (q.score > 0))
    | none => some false

/-- Source `GameState.get_all_scores`: the `{'user': ..., 'score': ...}` dicts as
pairs, in member-list order. -/
def get_all_scores (g : GameState) : List (String × Nat) :=
  g.users.map (fun u => (u.username, count_user_score u))

/-- Source `GameState.get_list_of_usernames`. -/
def get_list_of_usernames (g : GameState) : List String :=
  g.users.map (fun u => u.username)

/-- Source `GameState.get_list_of_users_channels`. -/
def get_list_of_users_channels (g : GameState) : List String :=
  g.users.map (fun u => u.channel_name)

end GameState

namespace GameWorker

/-- Source `GameWorker.QUESTION_LENGTH`. -/
def QUESTION_LENGTH : Nat := 10

/-- Source `self.active_games[game_code]` lookup (games are stored under string
keys). -/
def lookupGame (w : Worker) (game_code : String) : Option GameState :=
  alistGet w.active_games (Key.str game_code)

/-- Dict assignment `self.active_games[game_code] = g`. -/
def setGame (w : Worker) (game_code : String) (g : GameState) : Worker :=
  { w with active_games := alistSet w.active_games (Key.str game_code) g }

/-- Source `self.active_games.pop(game_code)` key removal. -/
def eraseGame (w : Worker) (game_code : String) : Worker :=
  { w with active_games := alistErase w.active_games (Key.str game_code) }

/-- Source `self.current_players.get/[...]` lookup of a channel's game code. -/
def lookupPlayer (w : Worker) (channel_name : String) : Option String :=
  alistGet w.current_players channel_name

/-- Source `self.current_players[channel_name] = game_code`. -/
def setPlayer (w : Worker) (channel_name game_code : String) : Worker :=
  { w with current_players := alistSet w.current_players channel_name game_code }

/-- Source `del self.current_players[channel_name]`. -/
def erasePlayer (w : Worker) (channel_name : String) : Worker :=
  { w with current_players := alistErase w.current_players channel_name }

/-- Source `GameWorker._get_new_game_code`, with the stream of `random.randint(0, 99)`
draws made explicit.  The availability check `self.active_games.get(code, None)`
looks up the **int** draw while games are stored under **str** keys, so in
Python it never finds anything; the embedding performs the same typed lookup.
`none` models exhausting the draw stream (the source loops forever). -/
def get_new_game_code (games : List (Key × GameState)) :
    List Nat → Option String
  | [] => none
  | d :: rest =>
    match alistGet games (Key.int d) with
    | none => some (Nat.repr d)
    | some _ => get_new_game_code games rest

/-- Source `GameWorker._remove_player_from_game`: removes the member from its
`GameState`, then deletes the handle→code mapping.  `none` models the
`KeyError`/`ValueError` when the mapping or room is absent. -/
def remove_player_from_game (w : Worker) (channel_name : String) :
    Option Worker := do
  let game_code ← lookupPlayer w channel_name
  let g ← lookupGame w game_code
  let g' ← g.remove_user channel_name
  some (erasePlayer (setGame w game_code g') channel_name)

/-- Source `GameWorker._add_player_to_game`: adds the member to the room and
records the handle→code mapping; returns the final username. -/
def add_player_to_game (w : Worker) (channel_name username game_code : String) :
    Option (Worker × String) := do
  let g ← lookupGame w game_code
  let (g', newName) := g.add_user channel_name username
  some (setPlayer (setGame w game_code g') channel_name game_code, newName)

/-- Source `GameWorker._remove_game`: snapshots the member channels, removes each
member, then pops the room's dict entry. -/
def remove_game (w : Worker) (game_code : String) : Option Worker := do
  let g ← lookupGame w game_code
  let players := g.get_list_of_users_channels
  let w' ← players.foldlM (fun wa p => remove_player_from_game wa p) w
  let _ ← lookupGame w' game_code
  some (eraseGame w' game_code)

/-- Source `GameWorker.create_game`.  `username = ""` models a falsy (missing or
empty) username; `draws` feeds `_get_new_game_code`. -/
def create_game (w : Worker) (channel_name username : String)
    (draws : List Nat) : Option (Worker × List Msg) := do
  let game_code ← get_new_game_code w.active_games draws
  if username = "" then
    some (w, [Msg.error channel_name "Some data is missing"])
  else do
    let w ← if (lookupPlayer w channel_name).isSome then
              remove_player_from_game w channel_name
            else some w
    let w := setGame w game_code (GameState.init game_code)
    let (w, _) ← add_player_to_game w channel_name username game_code
    some (w, [Msg.game_created channel_name game_code])

/-- Lines 138–162 of `GameWorker.add_user`: room existence / running checks,
then the join proper with its two replies. -/
def add_user_core (w : Worker) (channel_name username game_code : String) :
    Option (Worker × List Msg) :=
  match lookupGame w game_code with
  | none =>
    some (w, [Msg.error channel_name
      ("Game with code " ++ game_code ++ " does not exist")])
  | some g =>
    if g.is_game_running then
      some (w, [Msg.error channel_name
        ("Game with code " ++ game_code ++ " is running already")])
    else do
      let (w', newName) ← add_player_to_game w channel_name username game_code
      let g' ← lookupGame w' game_code
      some (w', [Msg.join_successful channel_name newName,
                 Msg.show_users game_code g'.get_list_of_usernames])

/-- Source `GameWorker.add_user` (the join handler).  `username = ""` models a falsy
username, `game_code? = none` models `game_code is None`. -/
def add_user (w : Worker) (channel_name username : String)
    (game_code? : Option String) : Option (Worker × List Msg) :=
  match game_code? with
  | none => some (w, [Msg.error channel_name "Some data is missing"])
  | some game_code =>
    if username = "" then
      some (w, [Msg.error channel_name "Some data is missing"])
    else
      match lookupPlayer w channel_name with
      | some current =>
        if current = game_code then
          some (w, [Msg.error channel_name "You are in this game already"])
        else
          (remove_player_from_game w channel_name).bind
            (fun w' => add_user_core w' channel_name username game_code)
      | none => add_user_core w channel_name username game_code

/-- Source `GameWorker.remove_user` (the leave handler). -/
def remove_user (w : Worker) (channel_name : String) :
    Option (Worker × List Msg) :=
  match lookupPlayer w channel_name with
  | none => some (w, [Msg.error channel_name "You are not in a game"])
  | some _ =>
    (remove_player_from_game w channel_name).map (fun w' => (w', []))

/-- Source `GameWorker.submit_answer`.  `question_id?`/`answer?` carry the outcome
of `int(event[...])` (`none` = the parse raised and was caught).  The result
`none` models the uncaught `TypeError` from `self.current_question['id']`
when `current_question` is `None`. -/
def submit_answer (w : Worker) (channel_name : String)
    (question_id? answer? : Option Int) : Option (Worker × List Msg) :=
  match lookupPlayer w channel_name with
  | none => some (w, [Msg.error channel_name "You are not in a game"])
  | some game_code =>
    match question_id? with
    | none => some (w, [Msg.error channel_name "Wrong question id"])
    | some question_id =>
      match w.current_question with
      | none => none
      | some cq =>
        if question_id ≠ cq.id then
          if cq.id > question_id ∧ question_id ≥ 0 then
            some (w, [Msg.error channel_name "Question already ended"])
          else
            some (w, [Msg.error channel_name "Wrong question id"])
        else
          match answer? with
          | none => some (w, [Msg.error channel_name "Wrong answer format"])
          | some answer => do
            let score : Nat := if answer = cq.correct_answer then 10 else 0
            let g ← lookupGame w game_code
            let (g', accepted) ← g.set_answer channel_name question_id score
            let w' := setGame w game_code g'
            if accepted then
              some (w', [Msg.question_end channel_name cq.id (decide (score > 0))])
            else
              some (w', [])

/-- Source `GameWorker.start_game` (the start handler).  The extra boolean records
whether `asyncio.create_task(self._run_game(...))` was spawned. -/
def start_game (w : Worker) (channel_name : String) :
    Option (Worker × List Msg × Bool) :=
  match lookupPlayer w channel_name with
  | none => some (w, [Msg.error channel_name "You are not in a game"], false)
  | some game_code => do
    let g ← lookupGame w game_code
    let (g', ok) := g.start_game
    if ok then some (setGame w game_code g', [], true)
    else some (w, [Msg.error channel_name "Game is running already"], false)

/-- Source `GameWorker._ask_question` up to its sleep: overwrites the worker's
single `current_question` and broadcasts the question to the room. -/
def ask_question (w : Worker) (game_code : String) (question_id : Int)
    (q : Question) : Worker × List Msg :=
  ({ w with current_question := some ⟨question_id, q.correct_answer⟩ },
   [Msg.ask_question game_code question_id QUESTION_LENGTH q.content q.answers])

/-- Lines 92–99 of `GameWorker._run_game`: after the last question's wait,
broadcast the final scoreboard and remove the game. -/
def end_game (w : Worker) (game_code : String) : Option (Worker × List Msg) := do
  let g ← lookupGame w game_code
  let w' ← remove_game w game_code
  some (w', [Msg.game_ended game_code g.get_all_scores])

end GameWorker

/-! ## Concrete fixtures (reachable worker states used by witnesses) -/

/-- A fresh worker, as built by `GameWorker.__init__`. -/
def emptyWorker : Worker := ⟨[], [], none⟩

/-- A room holding members `Alex` and `Alex #2`. -/
def roomAlexes : GameState :=
  ⟨"7", [⟨"chA", "Alex", []⟩, ⟨"chB", "Alex #2", []⟩], false⟩

/-- A one-member room that has not been started. -/
def roomAlice : GameState := ⟨"7", [⟨"chA", "Alice", []⟩], false⟩

/-- The same one-member room after a successful start. -/
def roomAliceRunning : GameState := ⟨"7", [⟨"chA", "Alice", []⟩], true⟩

/-- Worker tracking the non-running one-member room. -/
def wAlice : Worker := ⟨[(Key.str "7", roomAlice)], [("chA", "7")], none⟩

/-- Worker tracking the running one-member room. -/
def wAliceRunning : Worker :=
  ⟨[(Key.str "7", roomAliceRunning)], [("chA", "7")], none⟩

/-- Worker mid-round: question 0 (correct answer 1) is open. -/
def wQuiz : Worker :=
  ⟨[(Key.str "7", roomAliceRunning)], [("chA", "7")], some ⟨0, 1⟩⟩

/-- Worker mid-round: question 2 (correct answer 1) is open. -/
def wStale : Worker :=
  ⟨[(Key.str "7", roomAliceRunning)], [("chA", "7")], some ⟨2, 1⟩⟩

/-- Two rooms running rounds at once; room `"5"` most recently asked its
question 1, which is the worker's single current question. -/
def wTwoRooms : Worker :=
  ⟨[(Key.str "5", ⟨"5", [⟨"chA", "Alice", []⟩], true⟩),
    (Key.str "6", ⟨"6", [⟨"chB", "Bob", []⟩], true⟩)],
   [("chA", "5"), ("chB", "6")], some ⟨1, 0⟩⟩

/-- A finished one-question round: Alice scored 10, Bob answered nothing. -/
def wEndOfRound : Worker :=
  ⟨[(Key.str "7", ⟨"7", [⟨"chA", "Alice", [⟨0, 10⟩]⟩, ⟨"chB", "Bob", []⟩], true⟩)],
   [("chA", "7"), ("chB", "7")], some ⟨0, 1⟩⟩


/-- Observer: the score recorded in a room for one (player, question) pair,
read back the way `GameState.check_if_user_was_right` reads it. -/
def recordedScore (g : GameState) (channel_name : String)
    (question_id : Int) : Option Nat :=
  match g.get_user channel_name with
  | none => none
  | some u =>
    match u.answers.find? (fun q => q.question_id == question_id) with
    | none => none
    | some q => some q.score


/-! ## Association-list lemmas -/

section AList

variable {κ α : Type} [BEq κ] [LawfulBEq κ]

theorem alistGet_set_self (l : List (κ × α)) (k : κ) (v : α) :
    alistGet (alistSet l k v) k = some v := by
  induction l with
  | nil => simp [alistSet, alistGet]
  | cons p t ih =>
    by_cases hp : p.1 == k
    · simp [alistSet, alistGet, hp]
    · simp [alistSet, alistGet, hp, ih]

theorem alistGet_set_ne (l : List (κ × α)) {k k' : κ} (v : α) (h : k' ≠ k) :
    alistGet (alistSet l k v) k' = alistGet l k' := by
  have hkk : (k == k') = false := by
    simp only [beq_eq_false_iff_ne, ne_eq]
    exact fun he => h he.symm
  induction l with
  | nil => simp [alistSet, alistGet, hkk]
  | cons p t ih =>
    by_cases hp : p.1 == k
    · have hp' : (p.1 == k') = false := by
        have : p.1 = k := eq_of_beq hp
        simp only [this, hkk]
      simp [alistSet, alistGet, hp, hp', hkk]
    · simp only [alistSet, if_neg hp]
      simp [alistGet, ih]

omit [LawfulBEq κ] in
theorem alistGet_erase_self (l : List (κ × α)) (k : κ) :
    alistGet (alistErase l k) k = none := by
  induction l with
  | nil => simp [alistErase, alistGet]
  | cons p t ih =>
    by_cases hp : p.1 == k
    · simpa [alistErase, List.filter, hp] using ih
    · simpa [alistErase, List.filter, hp, alistGet] using ih

theorem alistGet_erase_ne (l : List (κ × α)) {k k' : κ} (h : k' ≠ k) :
    alistGet (alistErase l k) k' = alistGet l k' := by
  induction l with
  | nil => simp [alistErase, alistGet]
  | cons p t ih =>
    by_cases hp : p.1 == k
    · have hp' : (p.1 == k') = false := by
        have : p.1 = k := eq_of_beq hp
        simp only [beq_eq_false_iff_ne, this, ne_eq]
        exact fun he => h he.symm
      simpa [alistErase, List.filter, hp, alistGet, hp'] using ih
    · by_cases hp' : p.1 == k'
      · simp [alistErase, List.filter, hp, alistGet, hp']
      · simpa [alistErase, List.filter, hp, alistGet, hp'] using ih

end AList

/-! ## Injectivity of the decimal rendering `Nat.repr` on positive numbers

Needed to show the `while` loop of `GameState.add_user` always finds a free
suffix index within `users.length + 1` tries. -/

theorem toDigitsCore_eq_digits :
    ∀ (fuel n : Nat) (acc : List Char), n ≠ 0 → n ≤ fuel →
      Nat.toDigitsCore 10 fuel n acc =
        ((Nat.digits 10 n).map Nat.digitChar).reverse ++ acc := by
  intro fuel
  induction fuel with
  | zero => intro n acc hn hle; omega
  | succ f ih =>
    intro n acc hn hle
    have hdig : Nat.digits 10 n = n % 10 :: Nat.digits 10 (n / 10) :=
      Nat.digits_def' (by norm_num) (Nat.pos_of_ne_zero hn)
    by_cases h10 : n / 10 = 0
    · simp only [Nat.toDigitsCore, h10, if_pos]
      rw [hdig, h10]
      simp
    · simp only [Nat.toDigitsCore, if_neg h10]
      have hlt : n / 10 < n := Nat.div_lt_self (Nat.pos_of_ne_zero hn) (by norm_num)
      rw [ih (n / 10) (Nat.digitChar (n % 10) :: acc) h10 (by omega)]
      rw [hdig]
      simp

theorem repr_eq_of_ne_zero {n : Nat} (hn : n ≠ 0) :
    Nat.repr n = (((Nat.digits 10 n).map Nat.digitChar).reverse).asString := by
  unfold Nat.repr Nat.toDigits
  rw [toDigitsCore_eq_digits (n + 1) n [] hn (by omega)]
  simp

theorem digitChar_inj_lt :
    ∀ a, a < 10 → ∀ b, b < 10 → Nat.digitChar a = Nat.digitChar b → a = b := by
  decide

theorem map_digitChar_inj :
    ∀ (l1 l2 : List Nat), (∀ d ∈ l1, d < 10) → (∀ d ∈ l2, d < 10) →
      l1.map Nat.digitChar = l2.map Nat.digitChar → l1 = l2 := by
  intro l1
  induction l1 with
  | nil => intro l2 _ _ h; cases l2 <;> simp_all
  | cons a t ih =>
    intro l2 h1 h2 h
    cases l2 with
    | nil => simp at h
    | cons b t2 =>
      simp only [List.map_cons, List.cons.injEq] at h
      have ha := h1 a (by simp)
      have hb := h2 b (by simp)
      have : a = b := digitChar_inj_lt a ha b hb h.1
      subst this
      have := ih t2 (fun d hd => h1 d (by simp [hd])) (fun d hd => h2 d (by simp [hd])) h.2
      simp [this]

theorem asString_inj {l1 l2 : List Char} (h : l1.asString = l2.asString) :
    l1 = l2 := by
  have := congrArg String.data h
  simpa [List.asString] using this

theorem repr_inj_of_pos {m n : Nat} (hm : m ≠ 0) (hn : n ≠ 0)
    (h : Nat.repr m = Nat.repr n) : m = n := by
  rw [repr_eq_of_ne_zero hm, repr_eq_of_ne_zero hn] at h
  have h2 := asString_inj h
  have h3 := List.reverse_injective h2
  have h4 := map_digitChar_inj _ _
    (fun d hd => Nat.digits_lt_base (by norm_num) hd)
    (fun d hd => Nat.digits_lt_base (by norm_num) hd) h3
  calc m = Nat.ofDigits 10 (Nat.digits 10 m) := (Nat.ofDigits_digits 10 m).symm
    _ = Nat.ofDigits 10 (Nat.digits 10 n) := by rw [h4]
    _ = n := Nat.ofDigits_digits 10 n

theorem suffixName_inj (name : String) {j k : Nat} (hj : j ≠ 0) (hk : k ≠ 0)
    (h : GameState.suffixName name j = GameState.suffixName name k) : j = k := by
  unfold GameState.suffixName at h
  have hd := congrArg String.data h
  simp only [String.data_append] at hd
  have hdd : (Nat.repr j).data = (Nat.repr k).data :=
    List.append_cancel_left hd
  exact repr_inj_of_pos hj hk (String.ext hdd)

/-! ## Username disambiguation: the search always finds the first free index -/

theorem is_username_available_iff (g : GameState) (s : String) :
    g.is_username_available s = true ↔ s ∉ g.get_list_of_usernames := by
  unfold GameState.is_username_available GameState.get_list_of_usernames
  constructor
  · intro h hmem
    obtain ⟨u, hu, he⟩ := List.mem_map.mp hmem
    have hany : g.users.any (fun u => u.username == s) = true :=
      List.any_eq_true.mpr ⟨u, hu, by simp [he]⟩
    rw [hany] at h
    simp at h
  · intro h
    have hany : g.users.any (fun u => u.username == s) = false := by
      rw [List.any_eq_false]
      intro u hu
      simp only [beq_iff_eq]
      intro he
      exact h (List.mem_map.mpr ⟨u, hu, he⟩)
    rw [hany]
    rfl

theorem exists_available_suffix (g : GameState) (name : String) :
    ∃ j, j < g.users.length + 1 ∧
      g.is_username_available (GameState.suffixName name (2 + j)) = true := by
  by_contra hcon
  push_neg at hcon
  have hmem : ∀ j < g.users.length + 1,
      GameState.suffixName name (2 + j) ∈ g.get_list_of_usernames := by
    intro j hj
    have h := hcon j hj
    by_contra hmem'
    exact h ((is_username_available_iff _ _).mpr hmem')
  have hnd : ((List.range (g.users.length + 1)).map
      (fun j => GameState.suffixName name (2 + j))).Nodup := by
    refine List.Nodup.map_on ?_ (List.nodup_range _)
    intro x _ y _ hxy
    have := suffixName_inj name (by omega) (by omega) hxy
    omega
  have hsub : ((List.range (g.users.length + 1)).map
      (fun j => GameState.suffixName name (2 + j))) ⊆ g.get_list_of_usernames := by
    intro s hs
    obtain ⟨j, hj, rfl⟩ := List.mem_map.mp hs
    exact hmem j (List.mem_range.mp hj)
  have hle := (List.subperm_of_subset hnd hsub).length_le
  simp only [List.length_map, List.length_range,
    GameState.get_list_of_usernames] at hle
  omega

theorem find_suffix_index_spec (g : GameState) (name : String) :
    ∀ (fuel start : Nat),
      (∃ j, j < fuel ∧
        g.is_username_available (GameState.suffixName name (start + j)) = true) →
      start ≤ GameState.find_suffix_index g name fuel start ∧
      g.is_username_available
        (GameState.suffixName name (GameState.find_suffix_index g name fuel start)) = true ∧
      ∀ m, start ≤ m → m < GameState.find_suffix_index g name fuel start →
        g.is_username_available (GameState.suffixName name m) = false := by
  intro fuel
  induction fuel with
  | zero =>
    intro start hex
    obtain ⟨j, hj, _⟩ := hex
    omega
  | succ f ih =>
    intro start hex
    by_cases h : g.is_username_available (GameState.suffixName name start) = true
    · rw [GameState.find_suffix_index, if_pos h]
      exact ⟨Nat.le_refl _, h, fun m h1 h2 => absurd h1 (by omega)⟩
    · have hfalse : g.is_username_available (GameState.suffixName name start) = false := by
        simpa using h
      obtain ⟨j, hj, hav⟩ := hex
      have hj0 : j ≠ 0 := by
        rintro rfl
        rw [Nat.add_zero] at hav
        exact h hav
      have hex' : ∃ j', j' < f ∧
          g.is_username_available (GameState.suffixName name (start + 1 + j')) = true := by
        refine ⟨j - 1, by omega, ?_⟩
        have : start + 1 + (j - 1) = start + j := by omega
        rw [this]
        exact hav
      have hrec := ih (start + 1) hex'
      rw [GameState.find_suffix_index, if_neg h]
      refine ⟨by omega, hrec.2.1, ?_⟩
      intro m h1 h2
      rcases Nat.eq_or_lt_of_le h1 with heq | hlt
      · rw [← heq]; exact hfalse
      · exact hrec.2.2 m hlt h2

/-! ## Worker-state helper lemmas -/

namespace GameWorker

theorem lookupGame_setGame_self (w : Worker) (c : String) (g : GameState) :
    lookupGame (setGame w c g) c = some g :=
  alistGet_set_self w.active_games (Key.str c) g

theorem lookupGame_setGame_ne (w : Worker) {c c' : String} (g : GameState)
    (h : c' ≠ c) : lookupGame (setGame w c g) c' = lookupGame w c' :=
  alistGet_set_ne w.active_games g (fun he => h (Key.str.inj he))

theorem lookupGame_eraseGame_self (w : Worker) (c : String) :
    lookupGame (eraseGame w c) c = none :=
  alistGet_erase_self w.active_games (Key.str c)

theorem lookupPlayer_setPlayer_self (w : Worker) (ch c : String) :
    lookupPlayer (setPlayer w ch c) ch = some c :=
  alistGet_set_self w.current_players ch c

theorem lookupPlayer_setPlayer_ne (w : Worker) {ch ch' : String} (c : String)
    (h : ch' ≠ ch) : lookupPlayer (setPlayer w ch c) ch' = lookupPlayer w ch' :=
  alistGet_set_ne w.current_players c h

theorem lookupPlayer_erasePlayer_self (w : Worker) (ch : String) :
    lookupPlayer (erasePlayer w ch) ch = none :=
  alistGet_erase_self w.current_players ch

theorem lookupPlayer_erasePlayer_ne (w : Worker) {ch ch' : String}
    (h : ch' ≠ ch) : lookupPlayer (erasePlayer w ch) ch' = lookupPlayer w ch' :=
  alistGet_erase_ne w.current_players h

/-- Eliminating a successful `_remove_player_from_game` into its pieces. -/
theorem remove_player_from_game_elim {w : Worker} {ch : String} {w' : Worker}
    (h : remove_player_from_game w ch = some w') :
    ∃ code g g', lookupPlayer w ch = some code ∧ lookupGame w code = some g ∧
      g.remove_user ch = some g' ∧ w' = erasePlayer (setGame w code g') ch := by
  unfold remove_player_from_game at h
  cases hc : lookupPlayer w ch with
  | none => rw [hc] at h; simp at h
  | some code =>
    rw [hc] at h
    simp only [Option.bind_eq_bind, Option.some_bind] at h
    cases hg : lookupGame w code with
    | none => rw [hg] at h; simp at h
    | some g =>
      rw [hg] at h
      simp only [Option.some_bind] at h
      cases hr : g.remove_user ch with
      | none => rw [hr] at h; simp at h
      | some g' =>
        rw [hr] at h
        simp only [Option.some_bind, Option.some.injEq] at h
        exact ⟨code, g, g', rfl, hg, hr, h.symm⟩

theorem lookupPlayer_remove_player_self {w : Worker} {ch : String} {w' : Worker}
    (h : remove_player_from_game w ch = some w') : lookupPlayer w' ch = none := by
  obtain ⟨code, g, g', _, _, _, rfl⟩ := remove_player_from_game_elim h
  exact lookupPlayer_erasePlayer_self _ ch

theorem lookupPlayer_remove_player_ne {w : Worker} {ch ch' : String} {w' : Worker}
    (hne : ch' ≠ ch) (h : remove_player_from_game w ch = some w') :
    lookupPlayer w' ch' = lookupPlayer w ch' := by
  obtain ⟨code, g, g', _, _, _, rfl⟩ := remove_player_from_game_elim h
  rw [lookupPlayer_erasePlayer_ne _ hne]
  rfl

theorem lookupGame_remove_player_ne {w : Worker} {ch : String} {w' : Worker}
    {code c : String} (hc : lookupPlayer w ch = some code) (hne : c ≠ code)
    (h : remove_player_from_game w ch = some w') :
    lookupGame w' c = lookupGame w c := by
  obtain ⟨code2, g, g', hc2, _, _, rfl⟩ := remove_player_from_game_elim h
  rw [hc] at hc2
  cases hc2
  show lookupGame (setGame w code g') c = lookupGame w c
  exact lookupGame_setGame_ne w g' hne

/-- The member-removal fold of `_remove_game` unmaps every listed channel and
never re-creates a mapping. -/
theorem foldlM_remove_player_lookupPlayer_none :
    ∀ (players : List String) (w w' : Worker),
      players.foldlM (fun wa p => remove_player_from_game wa p) w = some w' →
      ∀ ch, (ch ∈ players ∨ lookupPlayer w ch = none) →
        lookupPlayer w' ch = none := by
  intro players
  induction players with
  | nil =>
    intro w w' h ch hch
    simp only [List.foldlM_nil] at h
    cases h
    rcases hch with hch | hch
    · simp at hch
    · exact hch
  | cons p rest ih =>
    intro w w' h ch hch
    simp only [List.foldlM_cons] at h
    cases h1 : remove_player_from_game w p with
    | none => rw [h1] at h; simp at h
    | some w1 =>
      rw [h1] at h
      simp only [Option.bind_eq_bind, Option.some_bind] at h
      have hstep : lookupPlayer w1 ch = none ∨ ch ∈ rest := by
        by_cases hp : ch = p
        · subst hp; exact Or.inl (lookupPlayer_remove_player_self h1)
        · rcases hch with hch | hch
          · rcases List.mem_cons.mp hch with rfl | hmem
            · exact absurd rfl hp
            · exact Or.inr hmem
          · exact Or.inl ((lookupPlayer_remove_player_ne hp h1).trans hch)
      rcases hstep with hs | hs
      · exact ih w1 w' h ch (Or.inr hs)
      · exact ih w1 w' h ch (Or.inl hs)

end GameWorker

/-- Every key under which the worker ever stores a game is a `Key.str`, and
the allocator's check looks up a `Key.int`, which therefore never hits. -/
theorem alistGet_int_key_of_str_keys (games : List (Key × GameState)) (d : Nat)
    (h : ∀ p ∈ games, ∃ s, p.1 = Key.str s) :
    alistGet games (Key.int d) = none := by
  induction games with
  | nil => rfl
  | cons p t ih =>
    obtain ⟨s, hs⟩ := h p (by simp)
    have hbeq : (p.1 == Key.int d) = false := by
      rw [hs]; simp
    simp only [alistGet, hbeq, if_neg, Bool.false_eq_true, not_false_iff]
    exact ih (fun q hq => h q (by simp [hq]))

/-- On a str-keyed registry the allocator's availability check is dead code:
the first random draw is always returned, active room or not. -/
theorem get_new_game_code_first_draw (games : List (Key × GameState))
    (d : Nat) (rest : List Nat) (h : ∀ p ∈ games, ∃ s, p.1 = Key.str s) :
    GameWorker.get_new_game_code games (d :: rest) = some (Nat.repr d) := by
  unfold GameWorker.get_new_game_code
  rw [alistGet_int_key_of_str_keys games d h]

/-- Source `count_user_score` is the sum of the recorded scores. -/
theorem count_user_score_eq_sum (u : User) :
    GameState.count_user_score u = (u.answers.map Answer.score).sum := by
  unfold GameState.count_user_score
  suffices hgen : ∀ (l : List Answer) (n : Nat),
      l.foldl (fun score q => score + q.score) n = n + (l.map Answer.score).sum by
    simpa using hgen u.answers 0
  intro l
  induction l with
  | nil => intro n; simp
  | cons a t ih =>
    intro n
    simp only [List.foldl_cons, List.map_cons, List.sum_cons, ih]
    omega

/-- Source `get_user` after an in-place mutation of the found member. -/
theorem get_user_updateFirst (users : List User) (ch : String) (f : User → User)
    (hpres : ∀ v, (f v).channel_name = v.channel_name) :
    ∀ u, users.find? (fun v => v.channel_name == ch) = some u →
      (GameState.updateFirst users ch f).find? (fun v => v.channel_name == ch) =
        some (f u) := by
  induction users with
  | nil => intro u h; simp at h
  | cons v rest ih =>
    intro u h
    rw [List.find?_cons] at h
    by_cases hv : (v.channel_name == ch) = true
    · rw [hv] at h
      simp only [Option.some.injEq] at h
      subst h
      have hfu : ((f v).channel_name == ch) = true := by
        rw [hpres v]; exact hv
      unfold GameState.updateFirst
      rw [if_pos hv, List.find?_cons, hfu]
    · have hv' : (v.channel_name == ch) = false := by simpa using hv
      rw [hv'] at h
      unfold GameState.updateFirst
      rw [if_neg hv, List.find?_cons, hv']
      exact ih u h

/-! ## C6: username disambiguation -/

/-- C6. For every join into a room, the final username is the requested
name when no current member has it, and otherwise the requested name
suffixed with `" #k"` for the smallest `k ≥ 2` whose suffixed name is unused
in that room; the final name is never one already in use (so usernames stay
unique within a room), and the member list is extended at the end (join
order preserved). -/
theorem add_user_unique_suffix (g : GameState) (ch name : String) :
    (g.is_username_available name = true → (g.add_user ch name).2 = name) ∧
    (g.is_username_available name = false →
      ∃ k, 2 ≤ k ∧ (g.add_user ch name).2 = GameState.suffixName name k ∧
        g.is_username_available (GameState.suffixName name k) = true ∧
        ∀ j, 2 ≤ j → j < k →
          g.is_username_available (GameState.suffixName name j) = false) ∧
    (g.add_user ch name).2 ∉ g.get_list_of_usernames ∧
    (g.add_user ch name).1.users = g.users ++ [⟨ch, (g.add_user ch name).2, []⟩] := by
  by_cases hav : g.is_username_available name = true
  · refine ⟨fun _ => ?_, fun hf => absurd hav (by simp [hf]), ?_, ?_⟩
    · simp [GameState.add_user, hav]
    · have h2 : (g.add_user ch name).2 = name := by
        simp [GameState.add_user, hav]
      rw [h2]
      exact (is_username_available_iff g name).mp hav
    · simp [GameState.add_user]
  · have hav' : g.is_username_available name = false := by simpa using hav
    have hspec := find_suffix_index_spec g name (g.users.length + 1) 2
      (exists_available_suffix g name)
    have h2 : (g.add_user ch name).2 =
        GameState.suffixName name
          (GameState.find_suffix_index g name (g.users.length + 1) 2) := by
      simp [GameState.add_user, hav']
    refine ⟨fun ht => absurd ht (by simp [hav']), fun _ => ?_, ?_, ?_⟩
    · exact ⟨GameState.find_suffix_index g name (g.users.length + 1) 2,
        hspec.1, h2, hspec.2.1, fun j h2j hjK => hspec.2.2 j h2j hjK⟩
    · rw [h2]
      exact (is_username_available_iff g _).mp hspec.2.1
    · simp [GameState.add_user]

/-- Witness for C6: in a room holding `Alex` and `Alex #2`, a third `Alex`
deterministically becomes `Alex #3`, which is not yet in use. -/
theorem add_user_unique_suffix_witness :
    (roomAlexes.add_user "chC" "Alex").2 = "Alex #3" ∧
    (roomAlexes.add_user "chC" "Alex").2 ∉ roomAlexes.get_list_of_usernames := by
  constructor
  · decide
  · exact (add_user_unique_suffix roomAlexes "chC" "Alex").2.2.1

/-! ## C5: the running flag -/

/-- C5. A room's `running` flag is false at creation; `start_game` always
leaves the flag true; a member's startRoom on a non-running room succeeds,
flips the flag and spawns the round (boolean `true`), while startRoom on a
running room replies with the RoomRunning error, does not spawn, and leaves
the state (hence the flag) unchanged. -/
theorem running_monotone_start_once
    (w : Worker) (ch code c0 : String) (g : GameState)
    (hmem : GameWorker.lookupPlayer w ch = some code)
    (hg : GameWorker.lookupGame w code = some g) :
    (GameState.init c0).running = false ∧
    (g.start_game).1.running = true ∧
    (g.running = false →
      GameWorker.start_game w ch =
        some (GameWorker.setGame w code { g with running := true }, [], true) ∧
      GameWorker.lookupGame (GameWorker.setGame w code { g with running := true })
        code = some { g with running := true }) ∧
    (g.running = true →
      GameWorker.start_game w ch =
        some (w, [Msg.error ch "Game is running already"], false)) := by
  refine ⟨rfl, ?_, ?_, ?_⟩
  · by_cases h : g.running
    · simp [GameState.start_game, h]
    · simp [GameState.start_game, h]
  · intro hf
    refine ⟨?_, GameWorker.lookupGame_setGame_self w code _⟩
    simp only [GameWorker.start_game, hmem, hg]
    simp [GameState.start_game, hf]
  · intro ht
    simp only [GameWorker.start_game, hmem, hg]
    simp [GameState.start_game, ht]

/-- Witness for C5 at a concrete one-member room: the first start succeeds
and spawns; a start on the already-running room fails with the error. -/
theorem running_monotone_start_once_witness :
    GameWorker.start_game wAlice "chA" =
      some (GameWorker.setGame wAlice "7" { roomAlice with running := true },
        [], true) ∧
    GameWorker.start_game wAliceRunning "chA" =
      some (wAliceRunning, [Msg.error "chA" "Game is running already"], false) :=
  ⟨((running_monotone_start_once wAlice "chA" "7" "x" roomAlice
      (by decide) (by decide)).2.2.1 rfl).1,
   (running_monotone_start_once wAliceRunning "chA" "7" "x" roomAliceRunning
      (by decide) (by decide)).2.2.2 rfl⟩

/-! ## C9: submitAnswer with no active question crashes the worker -/

/-- C9, refuting the never-crash claim. A player creates a room (so the
handle is in a room) and submits a parseable question id before any question
was asked: `submit_answer` evaluates `self.current_question['id']` with
`current_question = None` and raises an unhandled `TypeError` (modelled as
`none`), instead of replying with a unicast error event. -/
theorem submit_no_active_question_crashes :
    (GameWorker.create_game emptyWorker "chA" "Alice" [5]).bind (fun r =>
      GameWorker.submit_answer r.1 "chA" (some 0) (some 1)) = none := by
  decide

/-! ## C2: room-code allocation -/

/-- C2, the code bug. With room `"5"` active (created by Alice from draw 5),
a second createRoom drawing 5 again returns code `"5"` anyway and silently
replaces the active room: the allocator's availability check
`active_games.get(code)` looks up the **int** draw in a **str**-keyed dict,
so it never hits.  Afterwards room `"5"` contains only Bob. -/
theorem create_game_reuses_active_code :
    ((GameWorker.create_game emptyWorker "chA" "Alice" [5]).bind (fun r1 =>
      (GameWorker.create_game r1.1 "chB" "Bob" [5]).map (fun r2 =>
        (GameWorker.lookupGame r1.1 "5", r2.2, GameWorker.lookupGame r2.1 "5"))))
    = some (some ⟨"5", [⟨"chA", "Alice", []⟩], false⟩,
            [Msg.game_created "chB" "5"],
            some ⟨"5", [⟨"chB", "Bob", []⟩], false⟩) := by
  decide

/-! ## C3: stale / unknown question ids -/

/-- C3 counterexample. The room's round has advanced to question 2;
submitting question id 0 — two behind the active id — yields the
QuestionAlreadyEnded error, whereas the claim demands InvalidQuestionId for
ids two or more behind. -/
theorem question_two_behind_yields_already_ended :
    ((GameWorker.create_game emptyWorker "chA" "Alice" [7]).bind (fun r1 =>
      (GameWorker.start_game r1.1 "chA").bind (fun r2 =>
        GameWorker.submit_answer
          ((GameWorker.ask_question
            ((GameWorker.ask_question
              ((GameWorker.ask_question r2.1 "7" 0 ⟨"q0", ["x", "y"], 1⟩).1)
              "7" 1 ⟨"q1", ["x", "y"], 1⟩).1)
            "7" 2 ⟨"q2", ["x", "y"], 1⟩).1)
          "chA" (some 0) (some 1)))).map (fun r => r.2)
    = some [Msg.error "chA" "Question already ended"] := by
  decide

/-- C3 amended. For a member's submission with a parseable question id
different from the current question's id: every non-negative id strictly
below the current id (one behind, two behind, or more) yields
QuestionAlreadyEnded, and every other id (ahead of the current id, or
negative) yields InvalidQuestionId; the state is unchanged. -/
theorem submit_stale_question_errors
    (w : Worker) (ch code : String) (cq : CurrentQuestion) (qid : Int)
    (a? : Option Int)
    (hmem : GameWorker.lookupPlayer w ch = some code)
    (hq : w.current_question = some cq)
    (hne : qid ≠ cq.id) :
    GameWorker.submit_answer w ch (some qid) a? =
      some (w, [Msg.error ch
        (if 0 ≤ qid ∧ qid < cq.id then "Question already ended"
         else "Wrong question id")]) := by
  simp only [GameWorker.submit_answer, hmem, hq]
  rw [if_pos hne]
  by_cases hc : cq.id > qid ∧ qid ≥ 0
  · rw [if_pos hc, if_pos (⟨hc.2, hc.1⟩ : 0 ≤ qid ∧ qid < cq.id)]
  · rw [if_neg hc, if_neg (fun hcc => hc ⟨hcc.2, hcc.1⟩)]

/-- Witness for C3 (amended), at the room whose active question id is 2 and
a submission of id 0. -/
theorem submit_stale_question_errors_witness :
    GameWorker.submit_answer wStale "chA" (some 0) (some 1) =
      some (wStale, [Msg.error "chA"
        (if 0 ≤ (0 : Int) ∧ (0 : Int) < (⟨2, 1⟩ : CurrentQuestion).id
         then "Question already ended" else "Wrong question id")]) :=
  submit_stale_question_errors wStale "chA" "7" ⟨2, 1⟩ 0 (some 1)
    (by decide) rfl (by decide)

/-! ## C1: answer validation is against the worker-global question -/

/-- C1 counterexample. Two rooms are created and started.  Room `"5"`
has asked its questions 0 and 1 (question 1 is open for it); then room
`"6"` asks its question 0, overwriting the worker's single
`current_question`.  Alice, a member of room `"5"`, submits id 1 — her own
room's open question — and receives the InvalidQuestionId error instead of
having the answer validated and scored against room `"5"`'s question. -/
theorem submit_cross_room_cex :
    ((GameWorker.create_game emptyWorker "chA" "Alice" [5]).bind (fun r1 =>
      (GameWorker.create_game r1.1 "chB" "Bob" [6]).bind (fun r2 =>
        (GameWorker.start_game r2.1 "chA").bind (fun r3 =>
          (GameWorker.start_game r3.1 "chB").bind (fun r4 =>
            GameWorker.submit_answer
              ((GameWorker.ask_question
                ((GameWorker.ask_question
                  ((GameWorker.ask_question r4.1 "5" 0 ⟨"qA0", ["x"], 0⟩).1)
                  "5" 1 ⟨"qA1", ["x"], 0⟩).1)
                "6" 0 ⟨"qB0", ["x"], 0⟩).1)
              "chA" (some 1) (some 0)))))).map (fun r => r.2)
    = some [Msg.error "chA" "Wrong question id"] := by
  decide

/-- C1 amended. `current_question` is a single worker-global value: as
soon as any room (here `codeB`, distinct from the submitter's room `codeA`)
asks a question with a higher id, a member of room `codeA` submitting the id
of their own room's open question is rejected with QuestionAlreadyEnded —
validation is against the globally last-asked question, not per room. -/
theorem submit_validates_against_global_question
    (w : Worker) (chA codeA codeB : String) (i j cA a : Int) (q : Question)
    (hmem : GameWorker.lookupPlayer w chA = some codeA)
    (_hA : w.current_question = some ⟨i, cA⟩)
    (hi : 0 ≤ i) (hij : i < j) (_hBA : codeB ≠ codeA) :
    GameWorker.submit_answer (GameWorker.ask_question w codeB j q).1 chA
        (some i) (some a) =
      some ((GameWorker.ask_question w codeB j q).1,
        [Msg.error chA "Question already ended"]) := by
  have hmem' : GameWorker.lookupPlayer (GameWorker.ask_question w codeB j q).1 chA
      = some codeA := hmem
  have hq' : (GameWorker.ask_question w codeB j q).1.current_question
      = some ⟨j, q.correct_answer⟩ := rfl
  simp only [GameWorker.submit_answer, hmem', hq']
  have hid : (⟨j, q.correct_answer⟩ : CurrentQuestion).id = j := rfl
  rw [if_pos (show i ≠ (⟨j, q.correct_answer⟩ : CurrentQuestion).id by
    rw [hid]; omega)]
  rw [if_pos (show (⟨j, q.correct_answer⟩ : CurrentQuestion).id > i ∧ i ≥ 0 by
    rw [hid]; exact ⟨by omega, hi⟩)]

/-- Witness for C1 (amended): rooms `"5"` and `"6"` both mid-round, room
`"5"`'s question 1 open; room `"6"` asks its question 2 and Alice's
submission of id 1 is rejected as already ended. -/
theorem submit_validates_against_global_question_witness :
    GameWorker.submit_answer
        (GameWorker.ask_question wTwoRooms "6" 2 ⟨"qB2", ["x"], 0⟩).1 "chA"
        (some 1) (some 0) =
      some ((GameWorker.ask_question wTwoRooms "6" 2 ⟨"qB2", ["x"], 0⟩).1,
        [Msg.error "chA" "Question already ended"]) :=
  submit_validates_against_global_question wTwoRooms "chA" "5" "6" 1 2 0 0
    ⟨"qB2", ["x"], 0⟩ (by decide) rfl (by decide) (by decide) (by decide)

/-! ## C4: well-formed submissions for the current question -/

/-- C4. For a member's well-formed submission for the current question:
the recorded score is 10 iff the submitted answer equals the question's
correct answer and 0 otherwise; a first submission for the (player,
question) pair is accepted and answered by a unicast result carrying the
question id and a correctness boolean; a repeat submission for the same
pair is not accepted, leaves the room state (hence the recorded score)
unchanged, and produces no reply at all. -/
theorem submit_current_question_records_once
    (w : Worker) (ch code : String) (cq : CurrentQuestion) (a : Int)
    (g : GameState) (u : User)
    (hmem : GameWorker.lookupPlayer w ch = some code)
    (hq : w.current_question = some cq)
    (hg : GameWorker.lookupGame w code = some g)
    (hu : g.get_user ch = some u) :
    (u.answers.any (fun q => q.question_id == cq.id) = false →
      ∃ g2, GameWorker.submit_answer w ch (some cq.id) (some a) =
          some (GameWorker.setGame w code g2,
            [Msg.question_end ch cq.id (decide (a = cq.correct_answer))]) ∧
        GameWorker.lookupGame (GameWorker.setGame w code g2) code = some g2 ∧
        recordedScore g2 ch cq.id =
          some (if a = cq.correct_answer then 10 else 0)) ∧
    (u.answers.any (fun q => q.question_id == cq.id) = true →
      GameWorker.submit_answer w ch (some cq.id) (some a) =
        some (GameWorker.setGame w code g, []) ∧
      GameWorker.lookupGame (GameWorker.setGame w code g) code = some g) := by
  constructor
  · intro hany
    set s : Nat := if a = cq.correct_answer then 10 else 0 with hs
    set f : User → User :=
      fun v => { v with answers := v.answers ++ [⟨cq.id, s⟩] } with hf
    set g2 : GameState := { g with users := GameState.updateFirst g.users ch f }
      with hg2
    have hset : g.set_answer ch cq.id s = some (g2, true) := by
      simp only [GameState.set_answer, hu, hany]
      rw [if_neg (by simp)]
    have hbool : decide (s > 0) = decide (a = cq.correct_answer) := by
      by_cases ha : a = cq.correct_answer <;> simp [hs, ha]
    have hrun : GameWorker.submit_answer w ch (some cq.id) (some a) =
        some (GameWorker.setGame w code g2,
          [Msg.question_end ch cq.id (decide (s > 0))]) := by
      simp only [GameWorker.submit_answer, hmem, hq]
      rw [if_neg (show ¬(cq.id ≠ cq.id) by simp)]
      simp only [hg, Option.bind_eq_bind, Option.some_bind, ← hs, hset]
      simp
    refine ⟨g2, ?_, GameWorker.lookupGame_setGame_self w code g2, ?_⟩
    · rw [hrun, hbool]
    · have hgu2 : g2.get_user ch =
          some { u with answers := u.answers ++ [⟨cq.id, s⟩] } := by
        exact get_user_updateFirst g.users ch f (fun v => rfl) u hu
      have hnone : u.answers.find? (fun q => q.question_id == cq.id) = none := by
        rw [List.find?_eq_none]
        intro x hx
        exact (List.any_eq_false.mp hany) x hx
      simp only [recordedScore, hgu2, List.find?_append, hnone,
        Option.none_or, List.find?_cons, beq_self_eq_true]
  · intro hany
    have hset : g.set_answer ch cq.id
        (if a = cq.correct_answer then 10 else 0) = some (g, false) := by
      simp only [GameState.set_answer, hu, hany]
      rw [if_pos (by simp)]
    constructor
    · simp only [GameWorker.submit_answer, hmem, hq]
      rw [if_neg (show ¬(cq.id ≠ cq.id) by simp)]
      simp only [hg, Option.bind_eq_bind, Option.some_bind, hset]
      simp
    · exact GameWorker.lookupGame_setGame_self w code g

/-- Witness for C4: Alice submits the correct answer 1 to the open question
0 for the first time; the submission is recorded with score 10 and answered
with a unicast result. -/
theorem submit_current_question_records_once_witness :
    ∃ g2, GameWorker.submit_answer wQuiz "chA" (some 0) (some 1) =
        some (GameWorker.setGame wQuiz "7" g2,
          [Msg.question_end "chA" 0 (decide ((1 : Int) = (1 : Int)))]) ∧
      GameWorker.lookupGame (GameWorker.setGame wQuiz "7" g2) "7" = some g2 ∧
      recordedScore g2 "chA" 0 =
        some (if (1 : Int) = (1 : Int) then 10 else 0) :=
  (submit_current_question_records_once wQuiz "chA" "7" ⟨0, 1⟩ 1
    roomAliceRunning ⟨"chA", "Alice", []⟩
    (by decide) rfl (by decide) (by decide)).1 (by decide)

/-! ## C7: end of round -/

/-- C7. When the scheduler reaches the end of the round, it broadcasts to
the room a scoreboard listing exactly the room's members in join (insertion)
order, each with the sum of that player's recorded answer scores, and then
dissolves the room: the code no longer names an active room and every member
is removed from the handle→room registry. -/
theorem end_game_scoreboard_and_dissolve
    (w w' : Worker) (code : String) (g : GameState) (msgs : List Msg)
    (hg : GameWorker.lookupGame w code = some g)
    (h : GameWorker.end_game w code = some (w', msgs)) :
    msgs = [Msg.game_ended code
      (g.users.map (fun u => (u.username, (u.answers.map Answer.score).sum)))] ∧
    GameWorker.lookupGame w' code = none ∧
    ∀ ch ∈ g.get_list_of_users_channels, GameWorker.lookupPlayer w' ch = none := by
  unfold GameWorker.end_game at h
  rw [hg] at h
  simp only [Option.bind_eq_bind, Option.some_bind] at h
  cases hrg : GameWorker.remove_game w code with
  | none => rw [hrg] at h; simp at h
  | some w2 =>
    rw [hrg] at h
    simp only [Option.some_bind, Option.some.injEq, Prod.mk.injEq] at h
    obtain ⟨hw, hm⟩ := h
    unfold GameWorker.remove_game at hrg
    rw [hg] at hrg
    simp only [Option.bind_eq_bind, Option.some_bind] at hrg
    cases hfold : g.get_list_of_users_channels.foldlM
        (fun wa p => GameWorker.remove_player_from_game wa p) w with
    | none => rw [hfold] at hrg; simp at hrg
    | some wf =>
      rw [hfold] at hrg
      simp only [Option.some_bind] at hrg
      cases hchk : GameWorker.lookupGame wf code with
      | none => rw [hchk] at hrg; simp at hrg
      | some gf =>
        rw [hchk] at hrg
        simp only [Option.some_bind, Option.some.injEq] at hrg
        refine ⟨?_, ?_, ?_⟩
        · rw [← hm]
          unfold GameState.get_all_scores
          simp [count_user_score_eq_sum]
        · rw [← hw, ← hrg]
          exact GameWorker.lookupGame_eraseGame_self wf code
        · intro ch hch
          rw [← hw, ← hrg]
          show GameWorker.lookupPlayer wf ch = none
          exact GameWorker.foldlM_remove_player_lookupPlayer_none _ w wf
            hfold ch (Or.inl hch)

/-- Witness for C7: the two-member room `"7"` (Alice scored 10, Bob nothing)
finishes its round; afterwards the room is gone and both members untracked. -/
theorem end_game_scoreboard_and_dissolve_witness :
    GameWorker.lookupGame (⟨[], [], some ⟨0, 1⟩⟩ : Worker) "7" = none ∧
    GameWorker.lookupPlayer (⟨[], [], some ⟨0, 1⟩⟩ : Worker) "chA" = none ∧
    GameWorker.lookupPlayer (⟨[], [], some ⟨0, 1⟩⟩ : Worker) "chB" = none := by
  have h := end_game_scoreboard_and_dissolve wEndOfRound
    (⟨[], [], some ⟨0, 1⟩⟩ : Worker) "7"
    (⟨"7", [⟨"chA", "Alice", [⟨0, 10⟩]⟩, ⟨"chB", "Bob", []⟩], true⟩ : GameState)
    [Msg.game_ended "7" [("Alice", 10), ("Bob", 0)]]
    (by decide) (by decide)
  exact ⟨h.2.1, h.2.2 "chA" (by decide), h.2.2 "chB" (by decide)⟩

/-! ## C8: leaving does not dissolve the room -/

/-- C8 counterexample. Alice creates room `"7"` and leaves it as its sole
member while it is not running; Bob then joins with the old code and the
join **succeeds** (join confirmation plus member-list broadcast), instead of
failing with the RoomNotFound error the claim requires. -/
theorem join_after_sole_leave_succeeds_cex :
    ((GameWorker.create_game emptyWorker "chA" "Alice" [7]).bind (fun r1 =>
      (GameWorker.remove_user r1.1 "chA").bind (fun r2 =>
        GameWorker.add_user r2.1 "chB" "Bob" (some "7")))).map (fun r => r.2)
    = some [Msg.join_successful "chB" "Bob", Msg.show_users "7" ["Bob"]] := by
  decide

/-- C8 amended. After the sole member of a non-running room leaves via
leaveRoom, the room object stays registered under its code with an empty
member list, and a subsequent joinRoom with the old code succeeds (the
joiner keeps the requested name and becomes the room's only member);
leaving does not remove the room, and the code is not freed by the leave
(the allocator's dead availability check never blocks any code anyway). -/
theorem room_remains_joinable_after_sole_leave
    (w : Worker) (ch ch2 name2 code : String) (g : GameState) (u : User)
    (hmem : GameWorker.lookupPlayer w ch = some code)
    (hg : GameWorker.lookupGame w code = some g)
    (husers : g.users = [u])
    (huch : u.channel_name = ch)
    (hrun : g.running = false)
    (hch2 : GameWorker.lookupPlayer w ch2 = none)
    (hname : name2 ≠ "") :
    ∃ w1, GameWorker.remove_user w ch = some (w1, []) ∧
      GameWorker.lookupGame w1 code = some { g with users := [] } ∧
      ∃ w2, GameWorker.add_user w1 ch2 name2 (some code) =
        some (w2, [Msg.join_successful ch2 name2,
                   Msg.show_users code [name2]]) := by
  have hget : g.get_user ch = some u := by
    unfold GameState.get_user
    rw [husers, List.find?_cons]
    have : (u.channel_name == ch) = true := by simp [huch]
    rw [this]
  have hrem : g.remove_user ch = some { g with users := [] } := by
    unfold GameState.remove_user
    rw [hget, husers]
    simp
  have hrpfg : GameWorker.remove_player_from_game w ch =
      some (GameWorker.erasePlayer
        (GameWorker.setGame w code { g with users := [] }) ch) := by
    unfold GameWorker.remove_player_from_game
    rw [hmem]
    simp only [Option.bind_eq_bind, Option.some_bind]
    rw [hg]
    simp only [Option.some_bind]
    rw [hrem]
    simp only [Option.some_bind]
  refine ⟨GameWorker.erasePlayer
      (GameWorker.setGame w code { g with users := [] }) ch, ?_, ?_, ?_⟩
  · unfold GameWorker.remove_user
    rw [hmem, hrpfg]
    rfl
  · show GameWorker.lookupGame
      (GameWorker.setGame w code { g with users := [] }) code = some _
    exact GameWorker.lookupGame_setGame_self w code _
  · have hch2ne : ch2 ≠ ch := by
      intro he
      rw [he, hmem] at hch2
      exact Option.noConfusion hch2
    have hch2w1 : GameWorker.lookupPlayer
        (GameWorker.erasePlayer
          (GameWorker.setGame w code { g with users := [] }) ch) ch2 = none := by
      rw [GameWorker.lookupPlayer_erasePlayer_ne _ hch2ne]
      exact hch2
    have hlg1 : GameWorker.lookupGame
        (GameWorker.erasePlayer
          (GameWorker.setGame w code { g with users := [] }) ch) code =
        some { g with users := [] } := by
      show GameWorker.lookupGame
        (GameWorker.setGame w code { g with users := [] }) code = some _
      exact GameWorker.lookupGame_setGame_self w code _
    have hav : GameState.is_username_available { g with users := [] } name2
        = true := rfl
    have hadd : GameState.add_user { g with users := [] } ch2 name2 =
        ({ g with users := [⟨ch2, name2, []⟩] }, name2) := by
      simp [GameState.add_user, hav]
    have haptg : GameWorker.add_player_to_game
        (GameWorker.erasePlayer
          (GameWorker.setGame w code { g with users := [] }) ch)
        ch2 name2 code =
        some (GameWorker.setPlayer
          (GameWorker.setGame
            (GameWorker.erasePlayer
              (GameWorker.setGame w code { g with users := [] }) ch)
            code { g with users := [⟨ch2, name2, []⟩] }) ch2 code, name2) := by
      unfold GameWorker.add_player_to_game
      rw [hlg1]
      simp only [Option.bind_eq_bind, Option.some_bind]
      rw [hadd]
    refine ⟨GameWorker.setPlayer
        (GameWorker.setGame
          (GameWorker.erasePlayer
            (GameWorker.setGame w code { g with users := [] }) ch)
          code { g with users := [⟨ch2, name2, []⟩] }) ch2 code, ?_⟩
    unfold GameWorker.add_user
    simp only [hch2w1, if_neg hname]
    unfold GameWorker.add_user_core
    rw [hlg1]
    have hrun' : GameState.is_game_running { g with users := [] } = false := by
      unfold GameState.is_game_running
      exact hrun
    simp only [hrun', Bool.false_eq_true, if_neg, if_false]
    rw [haptg]
    simp only [Option.bind_eq_bind, Option.some_bind]
    have hlg2 : GameWorker.lookupGame
        (GameWorker.setPlayer
          (GameWorker.setGame
            (GameWorker.erasePlayer
              (GameWorker.setGame w code { g with users := [] }) ch)
            code { g with users := [⟨ch2, name2, []⟩] }) ch2 code) code =
        some { g with users := [⟨ch2, name2, []⟩] } := by
      show GameWorker.lookupGame
        (GameWorker.setGame
          (GameWorker.erasePlayer
            (GameWorker.setGame w code { g with users := [] }) ch)
          code { g with users := [⟨ch2, name2, []⟩] }) code = some _
      exact GameWorker.lookupGame_setGame_self _ code _
    rw [hlg2]
    simp only [Option.some_bind]
    rfl

/-- Witness for C8 (amended): Alice leaves room `"7"` as sole member; Bob's
join with the old code succeeds. -/
theorem room_remains_joinable_after_sole_leave_witness :
    ∃ w1, GameWorker.remove_user wAlice "chA" = some (w1, []) ∧
      GameWorker.lookupGame w1 "7" = some { roomAlice with users := [] } ∧
      ∃ w2, GameWorker.add_user w1 "chB" "Bob" (some "7") =
        some (w2, [Msg.join_successful "chB" "Bob",
                   Msg.show_users "7" ["Bob"]]) :=
  room_remains_joinable_after_sole_leave wAlice "chA" "chB" "Bob" "7"
    roomAlice ⟨"chA", "Alice", []⟩ (by decide) (by decide) (by decide)
    (by decide) (by decide) (by decide) (by decide)

/-! ## C10: failed join is not atomic -/

/-- C10. A member of room `codeA` who joins with a code naming no active
room (or naming a running room) is first removed from room `codeA` and
unmapped, and only then sent the error: afterwards the handle is in no room
and room `codeA` no longer lists it. -/
theorem join_unknown_code_removes_from_old_room
    (w : Worker) (ch name codeA codeB : String) (gA : GameState) (u : User)
    (hmem : GameWorker.lookupPlayer w ch = some codeA)
    (hgA : GameWorker.lookupGame w codeA = some gA)
    (hu : gA.get_user ch = some u)
    (hname : name ≠ "")
    (hBA : codeB ≠ codeA)
    (htgt : GameWorker.lookupGame w codeB = none ∨
            ∃ gB, GameWorker.lookupGame w codeB = some gB ∧ gB.running = true) :
    ∃ w', GameWorker.add_user w ch name (some codeB) = some (w',
        [Msg.error ch (match GameWorker.lookupGame w codeB with
          | none => "Game with code " ++ codeB ++ " does not exist"
          | some _ => "Game with code " ++ codeB ++ " is running already")]) ∧
      GameWorker.lookupPlayer w' ch = none ∧
      GameWorker.lookupGame w' codeA =
        some { gA with users := gA.users.erase u } := by
  have hrem : gA.remove_user ch = some { gA with users := gA.users.erase u } := by
    unfold GameState.remove_user
    rw [hu]
  have hrpfg : GameWorker.remove_player_from_game w ch =
      some (GameWorker.erasePlayer
        (GameWorker.setGame w codeA { gA with users := gA.users.erase u }) ch) := by
    unfold GameWorker.remove_player_from_game
    rw [hmem]
    simp only [Option.bind_eq_bind, Option.some_bind]
    rw [hgA]
    simp only [Option.some_bind]
    rw [hrem]
    simp only [Option.some_bind]
  have hlgB : GameWorker.lookupGame
      (GameWorker.erasePlayer
        (GameWorker.setGame w codeA { gA with users := gA.users.erase u }) ch)
      codeB = GameWorker.lookupGame w codeB := by
    show GameWorker.lookupGame
      (GameWorker.setGame w codeA { gA with users := gA.users.erase u })
      codeB = _
    exact GameWorker.lookupGame_setGame_ne w _ hBA
  refine ⟨GameWorker.erasePlayer
      (GameWorker.setGame w codeA { gA with users := gA.users.erase u }) ch,
    ?_, GameWorker.lookupPlayer_erasePlayer_self _ ch, ?_⟩
  · unfold GameWorker.add_user
    simp only [hmem, if_neg hname]
    rw [if_neg (fun h => hBA h.symm)]
    rw [hrpfg]
    simp only [Option.bind_eq_bind, Option.some_bind]
    unfold GameWorker.add_user_core
    rcases htgt with hnone | ⟨gB, hgB, hrunB⟩
    · rw [hlgB.trans hnone, hnone]
    · rw [hlgB.trans hgB, hgB]
      have : gB.is_game_running = true := hrunB
      simp only [this, if_pos]
  · show GameWorker.lookupGame
      (GameWorker.setGame w codeA { gA with users := gA.users.erase u })
      codeA = some _
    exact GameWorker.lookupGame_setGame_self w codeA _

/-- Witness for C10: Alice, a member of room `"7"`, joins with the unknown
code `"9"`; she ends up in no room, removed from room `"7"`, with the
RoomNotFound error. -/
theorem join_unknown_code_removes_from_old_room_witness :
    ∃ w', GameWorker.add_user wAlice "chA" "Alice" (some "9") = some (w',
        [Msg.error "chA" (match GameWorker.lookupGame wAlice "9" with
          | none => "Game with code " ++ "9" ++ " does not exist"
          | some _ => "Game with code " ++ "9" ++ " is running already")]) ∧
      GameWorker.lookupPlayer w' "chA" = none ∧
      GameWorker.lookupGame w' "7" =
        some { roomAlice with
          users := roomAlice.users.erase ⟨"chA", "Alice", []⟩ } :=
  join_unknown_code_removes_from_old_room wAlice "chA" "Alice" "7" "9"
    roomAlice ⟨"chA", "Alice", []⟩ (by decide) (by decide) (by decide)
    (by decide) (by decide) (Or.inl (by decide))
